import Mathlib

/-!
Shallow embedding of the sequoia signing mechanism
(`src/signature/internal/sequoia/rust/src/signature.rs` and `error.rs`).

Byte buffers are `List Nat`; external collaborators (the OpenPGP cert
parser, the softkeys custody backend import, the cert-store update, the
streaming verifying reader) are either parameters bundled in `Env` or
concrete reference models written from the spec, each marked
`Modelled from the spec:` in its doc comment.  Everything else is a direct
translation of the Rust source.
-/

/-- A byte blob crossing the boundary (`&[u8]` / `Vec<u8>`). -/
abbrev Blob := List Nat

/-- Model of `anyhow::Error`: a message plus whether the underlying error
downcasts to `std::io::Error` (the only downcast `set_error_from` performs). -/
structure AnyhowError where
  message : String
  isIo : Bool
deriving DecidableEq, Repr

/-- Model of the `anyhow::anyhow!` constructor: an ad-hoc error is not an
`io::Error`. -/
def anyhow (message : String) : AnyhowError := ⟨message, false⟩

/-- `SequoiaErrorKind` from `error.rs`. -/
inductive SequoiaErrorKind where
  | Unknown
  | InvalidArgument
  | IoError
deriving DecidableEq, Repr

/-- `SequoiaError` from `error.rs`: a (kind, message) pair. -/
structure SequoiaError where
  kind : SequoiaErrorKind
  message : String
deriving DecidableEq, Repr

/-- `set_error_from` from `error.rs` (the populated, non-null `err_ptr`
case): classify as `IoError` exactly when the error downcasts to
`std::io::Error`, otherwise `Unknown`. -/
def set_error_from (err : AnyhowError) : SequoiaError :=
  { kind := if err.isIo then SequoiaErrorKind.IoError else SequoiaErrorKind.Unknown,
    message := err.message }

/-- A key (primary or subkey) identified by its hex fingerprint.
`passphrase` carries the custody backend's lock state for `unlock`. -/
structure Key where
  fingerprint : String
  passphrase : Option String
deriving DecidableEq, Repr

/-- An OpenPGP certificate: a primary hex fingerprint and its key list
(primary key first, then subkeys). -/
structure Cert where
  fingerprint : String
  keys : List Key
deriving DecidableEq, Repr

/-- Modelled from the spec: a `sequoia_cert_store::LazyCert` as handed back
by store lookup; `parseError` is `some` when `to_cert()` fails to parse the
stored data. -/
structure LazyCert where
  cert : Cert
  parseError : Option String
deriving DecidableEq, Repr

/-- `LazyCert::to_cert`. -/
def LazyCert.to_cert (lc : LazyCert) : Except AnyhowError Cert :=
  match lc.parseError with
  | some e => .error (anyhow e)
  | none => .ok lc.cert

/-- Modelled from the spec: a custody-backend (`sequoia_keystore`) backend,
identified by a string id and holding the imported private key material. -/
structure Backend where
  id : String
  keys : List Key
deriving DecidableEq, Repr

/-- Modelled from the spec: the `sequoia_keystore::Keystore` as a list of
backends. -/
structure Keystore where
  backends : List Backend
deriving DecidableEq, Repr

/-- Modelled from the spec: `Keystore::find_key`, the custody backend's key
lookup-by-fingerprint, returning every held key whose fingerprint matches
the handle (possibly none). -/
def Keystore.find_key (ks : Keystore) (handle : String) : List Key :=
  (ks.backends.flatMap Backend.keys).filter (fun k => k.fingerprint == handle)

/-- Modelled from the spec: unlocking a key with a passphrase; a wrong
passphrase is an error, an unprotected key unlocks trivially. -/
def Key.unlock (key : Key) (password : String) : Except AnyhowError Key :=
  match key.passphrase with
  | none => .ok key
  | some p => if p == password then .ok key else .error (anyhow "Failed to unlock the key")

/-- Whether a certificate matches a key handle by primary key or subkey. -/
def certMatchesHandle (c : Cert) (handle : String) : Bool :=
  c.fingerprint == handle || c.keys.any (fun k => k.fingerprint == handle)

/-- Modelled from the spec: the certificate store's
`lookup_by_cert_or_subkey`, returning zero or more candidate certificates
for a key handle in store order (store I/O failure is not modelled). -/
def lookupByCertOrSubkey (store : List LazyCert) (handle : String) : List LazyCert :=
  store.filter (fun lc => certMatchesHandle lc.cert handle)

/-- Modelled from the spec: parsing a caller-supplied key handle string
into a structured `KeyHandle`; invalid syntax (empty or non-hex) is an
error distinct from not-found. -/
def isHexChar (c : Char) : Bool :=
  c.isDigit || (('A' ≤ c) && (c ≤ 'F')) || (('a' ≤ c) && (c ≤ 'f'))

/-- Modelled from the spec: `key_handle.parse::<KeyHandle>()`. -/
def parseKeyHandle (s : String) : Except AnyhowError String :=
  if s.length != 0 && s.toList.all isHexChar then .ok s
  else .error (anyhow ("malformed key handle: " ++ s))

/-- The stateful mechanism from `signature.rs`: custody backend,
shared certificate store, trust policy (the policy is the "valid for
signing" predicate applied to a certificate's keys). -/
structure SequoiaMechanism where
  keystore : Keystore
  certstore : List LazyCert
  policy : Cert → Key → Bool

/-- External collaborator operations used by `import_keys`, bundled as
parameters: the OpenPGP `CertParser`, the softkeys backend's key-material
import, and the certificate store's insert-or-merge update. -/
structure Env where
  certParse : Blob → Except AnyhowError (List (Except AnyhowError Cert))
  importKey : Backend → Cert → Except AnyhowError Backend
  updateStore : List LazyCert → Cert → Except AnyhowError (List LazyCert)

/-- Whether some backend has id `"softkeys"` (the loop over
`keystore.backends()` in `import_keys`). -/
def hasSoftkeys (backends : List Backend) : Bool :=
  backends.any (fun b => b.id == "softkeys")

/-- The per-record loop body of `import_keys`: malformed records are
skipped; for a parsed cert the key material is imported into the softkeys
backend, the hex fingerprint is recorded, and the cert is registered in
the certificate store; any import/update failure aborts with the partial
state kept. -/
def importLoop (env : Env) (records : List (Except AnyhowError Cert))
    (softkeys : Backend) (store : List LazyCert) (acc : List String) :
    Except AnyhowError (List String) × Backend × List LazyCert :=
  match records with
  | [] => (.ok acc, softkeys, store)
  | .error _ :: rest => importLoop env rest softkeys store acc
  | .ok cert :: rest =>
    match env.importKey softkeys cert with
    | .error e => (.error e, softkeys, store)
    | .ok softkeys' =>
      let acc' := acc ++ [cert.fingerprint]
      match env.updateStore store cert with
      | .error e => (.error e, softkeys', store)
      | .ok store' => importLoop env rest softkeys' store' acc'

/-- Run the import loop against the first backend whose id is
`"softkeys"`, leaving every other backend untouched. -/
def importIntoSoftkeys (env : Env) (records : List (Except AnyhowError Cert))
    (backends : List Backend) (store : List LazyCert) :
    Except AnyhowError (List String) × List Backend × List LazyCert :=
  match backends with
  | [] => (.error (anyhow "softkeys backend is not configured."), [], store)
  | b :: rest =>
    if b.id == "softkeys" then
      let (res, b', store') := importLoop env records b store []
      (res, b' :: rest, store')
    else
      let (res, rest', store') := importIntoSoftkeys env records rest store
      (res, b :: rest', store')

/-- `SequoiaMechanism::import_keys`: locate the softkeys backend (failing
with the configured-backend error if absent), parse the blob as a sequence
of certificate records, then run the import loop, returning the recorded
fingerprints and the mutated mechanism state. -/
def SequoiaMechanism.import_keys (env : Env) (m : SequoiaMechanism) (blob : Blob) :
    Except AnyhowError (List String) × SequoiaMechanism :=
  if hasSoftkeys m.keystore.backends then
    match env.certParse blob with
    | .error e => (.error e, m)
    | .ok records =>
      let (res, backends', store') :=
        importIntoSoftkeys env records m.keystore.backends m.certstore
      (res, { m with keystore := ⟨backends'⟩, certstore := store' })
  else
    (.error (anyhow "softkeys backend is not configured."), m)

/-- `sequoia_import_keys` (FFI): an empty blob short-circuits to a
successful empty import result without calling `import_keys`. -/
def sequoia_import_keys (env : Env) (m : SequoiaMechanism) (blob : Blob) :
    Except AnyhowError (List String) × SequoiaMechanism :=
  if blob.isEmpty then (.ok [], m)
  else SequoiaMechanism.import_keys env m blob

/-- `sequoia_import_result_get_count` (FFI). -/
def sequoia_import_result_get_count (key_handles : List String) : Nat :=
  key_handles.length

/-- `sequoia_import_result_get_content` (FFI): in-range indices return the
stored fingerprint string, out-of-range indices return the null sentinel
(`none`) and populate the error slot. -/
def sequoia_import_result_get_content (key_handles : List String) (index : Nat) :
    Option String × Option SequoiaError :=
  if h : index < key_handles.length then
    (some (key_handles.get ⟨index, h⟩), none)
  else
    (none, some (set_error_from (anyhow "No matching key handle")))

/-- Modelled from the spec: the serialized signed-and-literal message
produced by the `Message`/`Signer`/`LiteralWriter` pipeline, as a
length-prefixed encoding of the signing key's hex fingerprint followed by
the literal payload. -/
def encodeSignedMessage (signerFpr : String) (payload : Blob) : Blob :=
  signerFpr.length :: (signerFpr.toList.map Char.toNat ++ payload)

/-- Modelled from the spec: the signing pipeline of `sign` applied with an
unlocked key; the signature names the signing key by fingerprint. -/
def mkSignedMessage (key : Key) (data : Blob) : Blob :=
  encodeSignedMessage key.fingerprint data

/-- Modelled from the spec: the verifying reader's parse of a signed
message back into the signing key's fingerprint and the literal payload. -/
def decodeSignedMessage (blob : Blob) : Except AnyhowError (String × Blob) :=
  match blob with
  | [] => .error (anyhow "Malformed Message: empty input")
  | n :: rest =>
    if n ≤ rest.length then
      .ok (String.mk ((rest.take n).map Char.ofNat), rest.drop n)
    else
      .error (anyhow "Malformed Message: truncated input")

/-- The candidate certificates `sign` works on (`certs` in the source):
cert-or-subkey lookup followed by dropping entries whose `to_cert` fails. -/
def resolvedCandidates (store : List LazyCert) (handle : String) : List Cert :=
  (lookupByCertOrSubkey store handle).filterMap
    (fun lc => match lc.to_cert with
      | .ok c => some c
      | .error _ => none)

/-- The policy-valid signing-key fingerprints of one certificate, in key
order (the inner loop of `sign` over
`cert.keys().with_policy(policy, None).for_signing()`). -/
def signingFingerprints (policy : Cert → Key → Bool) (cert : Cert) : List String :=
  (cert.keys.filter (policy cert)).map Key.fingerprint

/-- `SequoiaMechanism::sign` from `signature.rs`: parse the key handle,
look up the candidate certificates (skipping unparseable store entries),
flatten the policy-valid signing-key fingerprints of every candidate in
order, fail if there are none, look the first one up in the custody
backend, fail if absent, unlock if a password was supplied, and build the
signed message with the found key. -/
def SequoiaMechanism.sign (m : SequoiaMechanism) (key_handle : String)
    (password : Option String) (data : Blob) : Except AnyhowError Blob :=
  match parseKeyHandle key_handle with
  | .error e => .error e
  | .ok primary_key_handle =>
    let certs : List Cert := resolvedCandidates m.certstore primary_key_handle
    let signing_key_handles : List String :=
      certs.flatMap (signingFingerprints m.policy)
    match signing_key_handles with
    | [] => .error (anyhow ("No matching signing key for " ++ key_handle))
    | skh :: _ =>
      match Keystore.find_key m.keystore skh with
      | [] => .error (anyhow "No matching key in keystore")
      | key :: _ =>
        match password with
        | none => .ok (mkSignedMessage key data)
        | some pw =>
          match Key.unlock key pw with
          | .error e => .error e
          | .ok key' => .ok (mkSignedMessage key' data)

/-- A single signature result inside a `MessageLayer::SignatureGroup`:
`good` is a successful verification carrying the issuing certificate
(`result.ka.cert()`), `bad` a failed individual signature. -/
inductive VerificationResultItem where
  | good (cert : Cert)
  | bad (message : String)
deriving DecidableEq, Repr

/-- A layer of the parsed message structure handed to `Helper::check`. -/
inductive MessageLayer where
  | compression
  | encryption
  | signatureGroup (results : List VerificationResultItem)
deriving DecidableEq, Repr

/-- `results.iter().find(|r| r.is_ok())` followed by extracting the
issuing certificate: the first successful result of a signature group. -/
def firstGoodResult : List VerificationResultItem → Option Cert
  | [] => none
  | .good c :: _ => some c
  | .bad _ :: rest => firstGoodResult rest

/-- `Helper::check` from `signature.rs`: scan the layers in order;
compression/encryption layers are only logged; at the first signature
group with a successful result, record its issuing certificate as the
signer and stop; if the scan falls off the end, fail with
"No valid signature". -/
def Helper.check : List MessageLayer → Except AnyhowError Cert
  | [] => .error (anyhow "No valid signature")
  | .compression :: rest => Helper.check rest
  | .encryption :: rest => Helper.check rest
  | .signatureGroup results :: rest =>
    match firstGoodResult results with
    | some c => .ok c
    | none => Helper.check rest

/-- The inner loop of `Helper::get_certs`: push every looked-up
certificate, propagating a `to_cert` failure. -/
def pushResolved (ms : List LazyCert) (acc : List Cert) :
    Except AnyhowError (List Cert) :=
  match ms with
  | [] => .ok acc
  | lc :: rest =>
    match lc.to_cert with
    | .error e => .error e
    | .ok c => pushResolved rest (acc ++ [c])

/-- The outer loop of `Helper::get_certs` over the referenced ids. -/
def getCertsLoop (store : List LazyCert) (ids : List String) (acc : List Cert) :
    Except AnyhowError (List Cert) :=
  match ids with
  | [] => .ok acc
  | id :: rest =>
    match pushResolved (lookupByCertOrSubkey store id) acc with
    | .error e => .error e
    | .ok acc' => getCertsLoop store rest acc'

/-- `Helper::get_certs` from `signature.rs`: the union, in order, of the
certificates found by cert-or-subkey lookup for each referenced handle. -/
def Helper.get_certs (store : List LazyCert) (ids : List String) :
    Except AnyhowError (List Cert) :=
  getCertsLoop store ids []

/-- The external streaming verifying reader, abstracted: from the
certificate store and the raw signature bytes, produce the recovered
literal content and the parsed layer structure. -/
abbrev Reader :=
  List LazyCert → Blob → Except AnyhowError (Blob × List MessageLayer)

/-- Modelled from the spec: a reference verifying reader.  It decodes the
signed message, resolves the signing key's handle through
`Helper.get_certs`, and reports one signature group in which a resolved
certificate yields a successful result exactly when it holds the signing
key. -/
def referenceReader : Reader := fun store blob =>
  match decodeSignedMessage blob with
  | .error e => .error e
  | .ok (signerFpr, payload) =>
    match Helper.get_certs store [signerFpr] with
    | .error e => .error e
    | .ok certs =>
      .ok (payload,
        [MessageLayer.signatureGroup (certs.map (fun c =>
          if c.keys.any (fun k => k.fingerprint == signerFpr) then
            VerificationResultItem.good c
          else
            VerificationResultItem.bad "Bad signature"))])

/-- `SequoiaMechanism::verify` from `signature.rs`, with the external
streaming reader as a parameter: fail immediately on empty input, stream
the input through the reader, run the helper's structure check, and
return the recovered content with the recorded signer's hex fingerprint.
(The per-verification policy reload and the `message_processed` assertion
live inside the external reader and are not modelled.) -/
def SequoiaMechanism.verify (reader : Reader) (m : SequoiaMechanism)
    (signature : Blob) : Except AnyhowError (Blob × String) :=
  if signature.isEmpty then .error (anyhow "empty signature")
  else
    match reader m.certstore signature with
    | .error e => .error e
    | .ok (content, layers) =>
      match Helper.check layers with
      | .error e => .error e
      | .ok signer => .ok (content, signer.fingerprint)

/-- Modelled from the spec: `CStr::to_str` UTF-8 validation across the
boundary, on the ASCII fragment; a non-UTF8 byte sequence yields a
`Utf8Error`, which is not an `io::Error`. -/
def utf8Decode (bytes : Blob) : Except AnyhowError String :=
  if bytes.all (fun b => b < 128) then
    .ok (String.mk (bytes.map Char.ofNat))
  else
    .error (anyhow "invalid utf-8 sequence")

/-- `sequoia_sign` (FFI): validate the key handle and optional password as
UTF-8, call the mechanism's `sign`, and either hand back the signature or
populate the error slot via `set_error_from`. -/
def sequoia_sign (m : SequoiaMechanism) (key_handle_bytes : Blob)
    (password_bytes : Option Blob) (data : Blob) :
    Option Blob × Option SequoiaError :=
  match utf8Decode key_handle_bytes with
  | .error e => (none, some (set_error_from e))
  | .ok key_handle =>
    match password_bytes with
    | some pb =>
      match utf8Decode pb with
      | .error e => (none, some (set_error_from e))
      | .ok password =>
        match SequoiaMechanism.sign m key_handle (some password) data with
        | .ok sig => (some sig, none)
        | .error e => (none, some (set_error_from e))
    | none =>
      match SequoiaMechanism.sign m key_handle none data with
      | .ok sig => (some sig, none)
      | .error e => (none, some (set_error_from e))

/-- Follows the spec's words (§3 "Signing Key Selection"): the fingerprint
of the first policy-valid signing key of the first matching certificate
that has one. -/
def specSelectedFingerprint (policy : Cert → Key → Bool) (certs : List Cert) :
    Option String :=
  match certs.find? (fun c => !(signingFingerprints policy c).isEmpty) with
  | some c => (signingFingerprints policy c).head?
  | none => none

/-- Whether a message layer is a signature group holding a successful
verification result. -/
def layerHasGoodResult : MessageLayer → Bool
  | .signatureGroup rs => (firstGoodResult rs).isSome
  | _ => false

/-! ### Helper lemmas -/

/-- A `utf8Decode` failure is a `Utf8Error`, never an `io::Error`. -/
theorem utf8Decode_error_not_io {bytes : Blob} {e : AnyhowError}
    (h : utf8Decode bytes = .error e) : e.isIo = false := by
  unfold utf8Decode at h
  split at h
  · exact Except.noConfusion h
  · injection h with h'
    subst h'
    rfl

/-- A `parseKeyHandle` failure is a parse error, never an `io::Error`. -/
theorem parseKeyHandle_error_not_io {s : String} {e : AnyhowError}
    (h : parseKeyHandle s = .error e) : e.isIo = false := by
  unfold parseKeyHandle at h
  split at h
  · exact Except.noConfusion h
  · injection h with h'
    subst h'
    rfl

/-! ### Claims -/

/-- C7: for every mechanism (and every external reader), `verify` applied
to the empty byte sequence returns an error and never a verification
result. -/
theorem verify_empty_input_fails (reader : Reader) (m : SequoiaMechanism) :
    SequoiaMechanism.verify reader m [] = .error (anyhow "empty signature") := rfl

/-- C8: for every mechanism, the FFI `sequoia_import_keys` applied to an
empty blob succeeds with an import result of count 0 and leaves the
mechanism — custody backend and certificate store — unchanged, without
invoking `import_keys` at all. -/
theorem sequoia_import_keys_empty_noop (env : Env) (m : SequoiaMechanism) :
    sequoia_import_keys env m [] = (.ok [], m) := rfl

/-- C6: reading an import result of count `n` at any index below `n`
succeeds and returns the stored fingerprint string; reading at any index
at or above `n` returns the null sentinel together with the
"No matching key handle" error. -/
theorem import_result_index_bounds (key_handles : List String) (index : Nat) :
    (∀ h : index < key_handles.length,
      sequoia_import_result_get_content key_handles index =
        (some (key_handles.get ⟨index, h⟩), none)) ∧
    (key_handles.length ≤ index →
      sequoia_import_result_get_content key_handles index =
        (none, some ⟨SequoiaErrorKind.Unknown, "No matching key handle"⟩)) := by
  constructor
  · intro h
    simp [sequoia_import_result_get_content, h]
  · intro h
    simp [sequoia_import_result_get_content, Nat.not_lt.mpr h, set_error_from, anyhow]

/-- Witness for C6 at a concrete import result of count 2: index 1
succeeds, index 2 (one past the end) fails with the documented error. -/
theorem import_result_index_bounds_witness :
    sequoia_import_result_get_content ["AA", "BB"] 1 = (some "BB", none) ∧
    sequoia_import_result_get_content ["AA", "BB"] 2 =
      (none, some ⟨SequoiaErrorKind.Unknown, "No matching key handle"⟩) :=
  ⟨(import_result_index_bounds ["AA", "BB"] 1).1 (by decide),
   (import_result_index_bounds ["AA", "BB"] 2).2 (by decide)⟩

/-- C4 counterexample: a non-UTF8 key handle crossing the boundary in
`sequoia_sign` populates an error of kind `Unknown`, not
`InvalidArgument` — `set_error_from` never assigns `InvalidArgument`. -/
theorem ffi_error_kind_counterexample :
    (sequoia_sign ⟨⟨[]⟩, [], fun _ _ => false⟩ [255] none []).2 =
      some ⟨SequoiaErrorKind.Unknown, "invalid utf-8 sequence"⟩ ∧
    SequoiaErrorKind.Unknown ≠ SequoiaErrorKind.InvalidArgument :=
  ⟨rfl, by decide⟩

/-- C4 (amended): every error surfaced through `set_error_from` that does
not downcast to `io::Error` — in particular those from malformed
key-handle syntax, non-UTF8 string input, and an out-of-range import
result index — is populated with kind `Unknown` (never
`InvalidArgument`). -/
theorem ffi_invalid_inputs_get_unknown_kind :
    (∀ e : AnyhowError, e.isIo = false →
      (set_error_from e).kind = SequoiaErrorKind.Unknown) ∧
    (∀ (m : SequoiaMechanism) (khB data : Blob) (e : AnyhowError),
      utf8Decode khB = .error e →
      (sequoia_sign m khB none data).2.map SequoiaError.kind =
        some SequoiaErrorKind.Unknown) ∧
    (∀ (m : SequoiaMechanism) (khB data : Blob) (kh : String) (e : AnyhowError),
      utf8Decode khB = .ok kh → parseKeyHandle kh = .error e →
      (sequoia_sign m khB none data).2.map SequoiaError.kind =
        some SequoiaErrorKind.Unknown) ∧
    (∀ (key_handles : List String) (index : Nat), key_handles.length ≤ index →
      (sequoia_import_result_get_content key_handles index).2.map SequoiaError.kind =
        some SequoiaErrorKind.Unknown) := by
  refine ⟨?_, ?_, ?_, ?_⟩
  · intro e he
    simp [set_error_from, he]
  · intro m khB data e h
    unfold sequoia_sign
    rw [h]
    simp [set_error_from, utf8Decode_error_not_io h]
  · intro m khB data kh e hok hbad
    simp only [sequoia_sign, hok, SequoiaMechanism.sign, hbad]
    simp [set_error_from, parseKeyHandle_error_not_io hbad]
  · intro key_handles index h
    simp [sequoia_import_result_get_content, Nat.not_lt.mpr h, set_error_from, anyhow]

/-- Witness for the amended C4: each of the three error sources at a
concrete input yields kind `Unknown`. -/
theorem ffi_invalid_inputs_get_unknown_kind_witness :
    (set_error_from ⟨"x", false⟩).kind = SequoiaErrorKind.Unknown ∧
    (sequoia_sign ⟨⟨[]⟩, [], fun _ _ => false⟩ [200] none []).2.map SequoiaError.kind =
      some SequoiaErrorKind.Unknown ∧
    (sequoia_sign ⟨⟨[]⟩, [], fun _ _ => false⟩ [103] none []).2.map SequoiaError.kind =
      some SequoiaErrorKind.Unknown ∧
    (sequoia_import_result_get_content ["AA"] 1).2.map SequoiaError.kind =
      some SequoiaErrorKind.Unknown :=
  ⟨ffi_invalid_inputs_get_unknown_kind.1 ⟨"x", false⟩ rfl,
   ffi_invalid_inputs_get_unknown_kind.2.1 ⟨⟨[]⟩, [], fun _ _ => false⟩ [200] []
     (anyhow "invalid utf-8 sequence") rfl,
   ffi_invalid_inputs_get_unknown_kind.2.2.1 ⟨⟨[]⟩, [], fun _ _ => false⟩ [103] []
     (String.mk [Char.ofNat 103])
     (anyhow ("malformed key handle: " ++ String.mk [Char.ofNat 103])) rfl rfl,
   ffi_invalid_inputs_get_unknown_kind.2.2.2 ["AA"] 1 (by decide)⟩

/-- C3: `Helper::check` scans layers in order; at the first signature
group holding a successful result it records that group's first
successful result's issuing certificate and stops, regardless of the
remaining layers; a structure made only of compression/encryption layers
fails with "No valid signature" and records no signer. -/
theorem helper_check_first_success :
    (∀ (pre rest : List MessageLayer) (results : List VerificationResultItem)
        (c : Cert),
      (∀ l ∈ pre, layerHasGoodResult l = false) →
      firstGoodResult results = some c →
      Helper.check (pre ++ MessageLayer.signatureGroup results :: rest) = .ok c) ∧
    (∀ layers : List MessageLayer,
      (∀ l ∈ layers, l = MessageLayer.compression ∨ l = MessageLayer.encryption) →
      Helper.check layers = .error (anyhow "No valid signature")) := by
  constructor
  · intro pre rest results c hpre hres
    induction pre with
    | nil => simp [Helper.check, hres]
    | cons l pre' ih =>
      have hpre' : ∀ l' ∈ pre', layerHasGoodResult l' = false :=
        fun l' hl' => hpre l' (List.mem_cons_of_mem _ hl')
      cases l with
      | compression => simpa [Helper.check] using ih hpre'
      | encryption => simpa [Helper.check] using ih hpre'
      | signatureGroup rs =>
        have hnone : firstGoodResult rs = none := by
          have hx := hpre _ (List.mem_cons_self _ _)
          cases hfg : firstGoodResult rs with
          | none => rfl
          | some c0 => simp [layerHasGoodResult, hfg] at hx
        simpa [Helper.check, hnone] using ih hpre'
  · intro layers h
    induction layers with
    | nil => rfl
    | cons l rest ih =>
      have hrest : ∀ l' ∈ rest, l' = MessageLayer.compression ∨
          l' = MessageLayer.encryption :=
        fun l' hl' => h l' (List.mem_cons_of_mem _ hl')
      rcases h l (List.mem_cons_self _ _) with hl | hl <;>
        · subst hl
          simpa [Helper.check] using ih hrest

/-- Witness for C3: a structure whose first good result sits behind a
logged layer, an all-failed group, and a failed result in its own group
is accepted with that result's certificate; a signature-free structure is
rejected. -/
theorem helper_check_first_success_witness :
    Helper.check [MessageLayer.compression,
      MessageLayer.signatureGroup [VerificationResultItem.bad "x"],
      MessageLayer.signatureGroup [VerificationResultItem.bad "y",
        VerificationResultItem.good ⟨"AA", []⟩],
      MessageLayer.encryption] = .ok ⟨"AA", []⟩ ∧
    Helper.check [MessageLayer.compression, MessageLayer.encryption] =
      .error (anyhow "No valid signature") :=
  ⟨helper_check_first_success.1
      [MessageLayer.compression, MessageLayer.signatureGroup [VerificationResultItem.bad "x"]]
      [MessageLayer.encryption]
      [VerificationResultItem.bad "y", VerificationResultItem.good ⟨"AA", []⟩]
      ⟨"AA", []⟩ (by decide) (by decide),
   helper_check_first_success.2
      [MessageLayer.compression, MessageLayer.encryption] (by decide)⟩

/-- Every looked-up entry resolving, `pushResolved` appends the resolved
certificates in order. -/
theorem pushResolved_all_parsed (ms : List LazyCert) (acc : List Cert)
    (h : ∀ lc ∈ ms, lc.parseError = none) :
    pushResolved ms acc = .ok (acc ++ ms.map LazyCert.cert) := by
  induction ms generalizing acc with
  | nil => simp [pushResolved]
  | cons lc rest ih =>
    have h1 : lc.parseError = none := h lc (List.mem_cons_self _ _)
    have h2 : ∀ x ∈ rest, x.parseError = none :=
      fun x hx => h x (List.mem_cons_of_mem _ hx)
    simp [pushResolved, LazyCert.to_cert, h1, ih _ h2]

/-- An id whose lookup is empty leaves the `get_certs` loop unchanged. -/
theorem getCertsLoop_skip (store : List LazyCert) (pre post : List String)
    (id : String) (acc : List Cert) (h : lookupByCertOrSubkey store id = []) :
    getCertsLoop store (pre ++ id :: post) acc = getCertsLoop store (pre ++ post) acc := by
  induction pre generalizing acc with
  | nil => simp [getCertsLoop, h, pushResolved]
  | cons x pre' ih =>
    simp only [List.cons_append, getCertsLoop]
    cases hp : pushResolved (lookupByCertOrSubkey store x) acc with
    | error e => rfl
    | ok acc' => exact ih acc'

/-- With every stored entry parseable, the `get_certs` loop returns the
accumulated union of per-id lookups. -/
theorem getCertsLoop_all_parsed (store : List LazyCert) (ids : List String)
    (acc : List Cert) (h : ∀ lc ∈ store, lc.parseError = none) :
    getCertsLoop store ids acc =
      .ok (acc ++ ids.flatMap
        (fun id => (lookupByCertOrSubkey store id).map LazyCert.cert)) := by
  induction ids generalizing acc with
  | nil => simp [getCertsLoop]
  | cons id rest ih =>
    have hm : ∀ lc ∈ lookupByCertOrSubkey store id, lc.parseError = none := by
      intro lc hlc
      exact h lc (List.mem_of_mem_filter hlc)
    simp [getCertsLoop, pushResolved_all_parsed _ _ hm, ih]

/-- C5: during verification certificate resolution, a key-handle
reference matching no stored certificate contributes nothing and causes
no error — deleting it from the reference list does not change
`get_certs` — and (all stored entries being parseable) the callback
returns the union, in order, of the certificates each reference resolves
to. -/
theorem get_certs_union_and_skip :
    (∀ (store : List LazyCert) (pre post : List String) (id : String),
      lookupByCertOrSubkey store id = [] →
      Helper.get_certs store (pre ++ id :: post) =
        Helper.get_certs store (pre ++ post)) ∧
    (∀ (store : List LazyCert) (ids : List String),
      (∀ lc ∈ store, lc.parseError = none) →
      Helper.get_certs store ids =
        .ok (ids.flatMap
          (fun id => (lookupByCertOrSubkey store id).map LazyCert.cert))) := by
  constructor
  · intro store pre post id h
    exact getCertsLoop_skip store pre post id [] h
  · intro store ids h
    simpa using getCertsLoop_all_parsed store ids [] h

/-- Witness for C5 on a one-cert store: the unresolvable handle "ZZ"
contributes nothing and no error, and the resolution of ["ZZ", "AA"] is
the union of the two lookups. -/
theorem get_certs_union_and_skip_witness :
    Helper.get_certs [⟨⟨"AA", [⟨"AA", none⟩]⟩, none⟩] ["ZZ", "AA"] =
      Helper.get_certs [⟨⟨"AA", [⟨"AA", none⟩]⟩, none⟩] ["AA"] ∧
    Helper.get_certs [⟨⟨"AA", [⟨"AA", none⟩]⟩, none⟩] ["ZZ", "AA"] =
      .ok [⟨"AA", [⟨"AA", none⟩]⟩] :=
  ⟨get_certs_union_and_skip.1 [⟨⟨"AA", [⟨"AA", none⟩]⟩, none⟩] [] ["AA"] "ZZ"
      (by decide),
   get_certs_union_and_skip.2 [⟨⟨"AA", [⟨"AA", none⟩]⟩, none⟩] ["ZZ", "AA"]
      (by decide)⟩

/-- C9: a blob parsing to one well-formed certificate record followed by
a malformed record imports the good record and yields a successful import
result of count 1; in general the import loop skips malformed records
instead of failing. -/
theorem import_skips_malformed :
    (∀ (env : Env) (b b' : Backend) (store store' : List LazyCert)
        (policy : Cert → Key → Bool) (blob : Blob) (c : Cert) (e : AnyhowError),
      b.id = "softkeys" →
      env.certParse blob = .ok [.ok c, .error e] →
      env.importKey b c = .ok b' →
      env.updateStore store c = .ok store' →
      (SequoiaMechanism.import_keys env ⟨⟨[b]⟩, store, policy⟩ blob).1 =
        .ok [c.fingerprint]) ∧
    (∀ (env : Env) (records : List (Except AnyhowError Cert)) (softkeys : Backend)
        (store : List LazyCert) (acc : List String) (e : AnyhowError),
      importLoop env (.error e :: records) softkeys store acc =
        importLoop env records softkeys store acc) := by
  constructor
  · intro env b b' store store' policy blob c e hid hparse himp hupd
    simp [SequoiaMechanism.import_keys, hasSoftkeys, hid, hparse,
      importIntoSoftkeys, importLoop, himp, hupd]
  · intro env records softkeys store acc e
    rfl

/-- Witness for C9: a two-record blob with a trailing malformed record
produces an import result of exactly one fingerprint. -/
theorem import_skips_malformed_witness :
    (SequoiaMechanism.import_keys
      ⟨fun _ => .ok [.ok ⟨"AA", [⟨"BB", none⟩]⟩, .error (anyhow "bad record")],
       fun _ _ => .ok ⟨"softkeys", [⟨"BB", none⟩]⟩,
       fun _ _ => .ok [⟨⟨"AA", [⟨"BB", none⟩]⟩, none⟩]⟩
      ⟨⟨[⟨"softkeys", []⟩]⟩, [], fun _ _ => true⟩ [1]).1 = .ok ["AA"] ∧
    importLoop
      ⟨fun _ => .ok [.ok ⟨"AA", [⟨"BB", none⟩]⟩, .error (anyhow "bad record")],
       fun _ _ => .ok ⟨"softkeys", [⟨"BB", none⟩]⟩,
       fun _ _ => .ok [⟨⟨"AA", [⟨"BB", none⟩]⟩, none⟩]⟩
      [.error (anyhow "bad record")] ⟨"softkeys", []⟩ [] [] =
    importLoop
      ⟨fun _ => .ok [.ok ⟨"AA", [⟨"BB", none⟩]⟩, .error (anyhow "bad record")],
       fun _ _ => .ok ⟨"softkeys", [⟨"BB", none⟩]⟩,
       fun _ _ => .ok [⟨⟨"AA", [⟨"BB", none⟩]⟩, none⟩]⟩
      [] ⟨"softkeys", []⟩ [] [] :=
  ⟨import_skips_malformed.1
      ⟨fun _ => .ok [.ok ⟨"AA", [⟨"BB", none⟩]⟩, .error (anyhow "bad record")],
       fun _ _ => .ok ⟨"softkeys", [⟨"BB", none⟩]⟩,
       fun _ _ => .ok [⟨⟨"AA", [⟨"BB", none⟩]⟩, none⟩]⟩
      ⟨"softkeys", []⟩ ⟨"softkeys", [⟨"BB", none⟩]⟩ [] [⟨⟨"AA", [⟨"BB", none⟩]⟩, none⟩]
      (fun _ _ => true) [1] ⟨"AA", [⟨"BB", none⟩]⟩ (anyhow "bad record")
      rfl rfl rfl rfl,
   import_skips_malformed.2
      ⟨fun _ => .ok [.ok ⟨"AA", [⟨"BB", none⟩]⟩, .error (anyhow "bad record")],
       fun _ _ => .ok ⟨"softkeys", [⟨"BB", none⟩]⟩,
       fun _ _ => .ok [⟨⟨"AA", [⟨"BB", none⟩]⟩, none⟩]⟩
      [] ⟨"softkeys", []⟩ [] [] (anyhow "bad record")⟩

/-- C10: `import_keys` is not atomic over successfully parsed
certificates: when the custody-backend import (first conjunct) or the
certificate-store registration (second conjunct) of the second parsed
certificate fails, the whole call returns the error and reports no
fingerprints, while the first certificate stays imported into the backend
and registered in the store. -/
theorem import_keys_partial_state :
    (∀ (env : Env) (b b1 : Backend) (store st1 : List LazyCert)
        (policy : Cert → Key → Bool) (blob : Blob) (c1 c2 : Cert) (e : AnyhowError),
      b.id = "softkeys" →
      env.certParse blob = .ok [.ok c1, .ok c2] →
      env.importKey b c1 = .ok b1 →
      env.updateStore store c1 = .ok st1 →
      env.importKey b1 c2 = .error e →
      SequoiaMechanism.import_keys env ⟨⟨[b]⟩, store, policy⟩ blob =
        (.error e, ⟨⟨[b1]⟩, st1, policy⟩)) ∧
    (∀ (env : Env) (b b1 b2 : Backend) (store st1 : List LazyCert)
        (policy : Cert → Key → Bool) (blob : Blob) (c1 c2 : Cert) (e : AnyhowError),
      b.id = "softkeys" →
      env.certParse blob = .ok [.ok c1, .ok c2] →
      env.importKey b c1 = .ok b1 →
      env.updateStore store c1 = .ok st1 →
      env.importKey b1 c2 = .ok b2 →
      env.updateStore st1 c2 = .error e →
      SequoiaMechanism.import_keys env ⟨⟨[b]⟩, store, policy⟩ blob =
        (.error e, ⟨⟨[b2]⟩, st1, policy⟩)) := by
  constructor
  · intro env b b1 store st1 policy blob c1 c2 e hid hparse himp1 hupd1 himp2
    simp [SequoiaMechanism.import_keys, hasSoftkeys, hid, hparse,
      importIntoSoftkeys, importLoop, himp1, hupd1, himp2]
  · intro env b b1 b2 store st1 policy blob c1 c2 e hid hparse himp1 hupd1 himp2 hupd2
    simp [SequoiaMechanism.import_keys, hasSoftkeys, hid, hparse,
      importIntoSoftkeys, importLoop, himp1, hupd1, himp2, hupd2]

/-- Witness for C10: with the second certificate's backend import
(resp. store registration) failing, the call errors while the first
certificate's import and registration survive in the final state. -/
theorem import_keys_partial_state_witness :
    SequoiaMechanism.import_keys
      ⟨fun _ => .ok [.ok ⟨"AA", []⟩, .ok ⟨"CC", []⟩],
       fun bk ce => if ce.fingerprint == "CC" then .error (anyhow "import failed")
         else .ok ⟨bk.id, bk.keys ++ ce.keys⟩,
       fun st ce => .ok (st ++ [(⟨ce, none⟩ : LazyCert)])⟩
      ⟨⟨[⟨"softkeys", []⟩]⟩, [], fun _ _ => true⟩ [1] =
      (.error (anyhow "import failed"),
       ⟨⟨[⟨"softkeys", []⟩]⟩, [⟨⟨"AA", []⟩, none⟩], fun _ _ => true⟩) ∧
    SequoiaMechanism.import_keys
      ⟨fun _ => .ok [.ok ⟨"AA", []⟩, .ok ⟨"CC", []⟩],
       fun bk ce => .ok ⟨bk.id, bk.keys ++ ce.keys⟩,
       fun st ce => if ce.fingerprint == "CC" then .error (anyhow "update failed")
         else .ok (st ++ [(⟨ce, none⟩ : LazyCert)])⟩
      ⟨⟨[⟨"softkeys", []⟩]⟩, [], fun _ _ => true⟩ [1] =
      (.error (anyhow "update failed"),
       ⟨⟨[⟨"softkeys", []⟩]⟩, [⟨⟨"AA", []⟩, none⟩], fun _ _ => true⟩) :=
  ⟨import_keys_partial_state.1
      ⟨fun _ => .ok [.ok ⟨"AA", []⟩, .ok ⟨"CC", []⟩],
       fun bk ce => if ce.fingerprint == "CC" then .error (anyhow "import failed")
         else .ok ⟨bk.id, bk.keys ++ ce.keys⟩,
       fun st ce => .ok (st ++ [(⟨ce, none⟩ : LazyCert)])⟩
      ⟨"softkeys", []⟩ ⟨"softkeys", []⟩ [] [⟨⟨"AA", []⟩, none⟩]
      (fun _ _ => true) [1] ⟨"AA", []⟩ ⟨"CC", []⟩ (anyhow "import failed")
      rfl rfl rfl rfl rfl,
   import_keys_partial_state.2
      ⟨fun _ => .ok [.ok ⟨"AA", []⟩, .ok ⟨"CC", []⟩],
       fun bk ce => .ok ⟨bk.id, bk.keys ++ ce.keys⟩,
       fun st ce => if ce.fingerprint == "CC" then .error (anyhow "update failed")
         else .ok (st ++ [(⟨ce, none⟩ : LazyCert)])⟩
      ⟨"softkeys", []⟩ ⟨"softkeys", []⟩ ⟨"softkeys", []⟩ [] [⟨⟨"AA", []⟩, none⟩]
      (fun _ _ => true) [1] ⟨"AA", []⟩ ⟨"CC", []⟩ (anyhow "update failed")
      rfl rfl rfl rfl rfl rfl⟩

/-- The head of the flattened signing-key fingerprints is the spec-worded
selection: the first policy-valid signing key of the first candidate
certificate that has one. -/
theorem flatMap_head_eq_specSelected (policy : Cert → Key → Bool)
    (certs : List Cert) :
    (certs.flatMap (signingFingerprints policy)).head? =
      specSelectedFingerprint policy certs := by
  induction certs with
  | nil => rfl
  | cons c rest ih =>
    cases hc : signingFingerprints policy c with
    | nil =>
      have hspec : specSelectedFingerprint policy (c :: rest) =
          specSelectedFingerprint policy rest := by
        unfold specSelectedFingerprint
        rw [List.find?_cons_of_neg _ (by simp [hc])]
      rw [List.flatMap_cons, hc, List.nil_append, ih, hspec]
    | cons x xs =>
      have hspec : specSelectedFingerprint policy (c :: rest) = some x := by
        unfold specSelectedFingerprint
        rw [List.find?_cons_of_pos _ (by simp [hc])]
        simp [hc]
      rw [List.flatMap_cons, hc]
      simp [hspec]

/-- C2: with a well-formed key handle, `sign` is determined by the
first-match selection: it looks up in the custody backend exactly the
fingerprint of the first policy-valid signing key of the first candidate
certificate having one; an empty selection fails with
"No matching signing key", and a selected fingerprint absent from the
custody backend fails with "No matching key in keystore". -/
theorem sign_first_match_selection (m : SequoiaMechanism) (key_handle : String)
    (data : Blob) (hkh : parseKeyHandle key_handle = .ok key_handle) :
    SequoiaMechanism.sign m key_handle none data =
      match specSelectedFingerprint m.policy
          (resolvedCandidates m.certstore key_handle) with
      | none => .error (anyhow ("No matching signing key for " ++ key_handle))
      | some fp =>
        match Keystore.find_key m.keystore fp with
        | [] => .error (anyhow "No matching key in keystore")
        | key :: _ => .ok (mkSignedMessage key data) := by
  have hhead := flatMap_head_eq_specSelected m.policy
    (resolvedCandidates m.certstore key_handle)
  cases hfm : (resolvedCandidates m.certstore key_handle).flatMap
      (signingFingerprints m.policy) with
  | nil =>
    rw [hfm] at hhead
    simp only [List.head?_nil] at hhead
    simp only [SequoiaMechanism.sign, hkh, hfm, ← hhead]
  | cons fp t =>
    rw [hfm] at hhead
    simp only [List.head?_cons] at hhead
    simp only [SequoiaMechanism.sign, hkh, hfm, ← hhead]

/-- Witness for C2 on a concrete mechanism whose certificate has a policy-
rejected primary key and a policy-valid subkey: the subkey's fingerprint
is selected and signed with. -/
theorem sign_first_match_selection_witness :
    SequoiaMechanism.sign
      ⟨⟨[⟨"softkeys", [⟨"BB", none⟩]⟩]⟩,
       [⟨⟨"AA", [⟨"AA", none⟩, ⟨"BB", none⟩]⟩, none⟩],
       fun _ k => k.fingerprint == "BB"⟩ "AA" none [7] =
      match specSelectedFingerprint (fun _ k => k.fingerprint == "BB")
          (resolvedCandidates [⟨⟨"AA", [⟨"AA", none⟩, ⟨"BB", none⟩]⟩, none⟩] "AA") with
      | none => .error (anyhow ("No matching signing key for " ++ "AA"))
      | some fp =>
        match Keystore.find_key ⟨[⟨"softkeys", [⟨"BB", none⟩]⟩]⟩ fp with
        | [] => .error (anyhow "No matching key in keystore")
        | key :: _ => .ok (mkSignedMessage key [7]) :=
  sign_first_match_selection
    ⟨⟨[⟨"softkeys", [⟨"BB", none⟩]⟩]⟩,
     [⟨⟨"AA", [⟨"AA", none⟩, ⟨"BB", none⟩]⟩, none⟩],
     fun _ k => k.fingerprint == "BB"⟩ "AA" [7] rfl

/-- The reference codec round-trips: decoding an encoded signed message
recovers the signer fingerprint and the payload. -/
theorem decode_encode (f : String) (d : Blob) :
    decodeSignedMessage (encodeSignedMessage f d) = .ok (f, d) := by
  have hlen : f.length = (f.toList.map Char.toNat).length := by
    rw [List.length_map]
    rfl
  have htake : (f.toList.map Char.toNat ++ d).take f.length =
      f.toList.map Char.toNat := by
    rw [hlen, List.take_left]
  have hdrop : (f.toList.map Char.toNat ++ d).drop f.length = d := by
    rw [hlen, List.drop_left]
  have hcond : f.length ≤ (f.toList.map Char.toNat ++ d).length := by
    rw [List.length_append, hlen]
    exact Nat.le_add_right _ _
  simp only [decodeSignedMessage, encodeSignedMessage, htake, hdrop, if_pos hcond]
  have hchars : (f.toList.map Char.toNat).map Char.ofNat = f.toList := by
    rw [List.map_map]
    simp [Function.comp_def]
  rw [hchars]
  rfl

/-- C1: for a certificate importable by the custody backend (its first
policy-valid signing key's material findable after import) and any
payload, importing it into a fresh mechanism, signing with the
certificate's fingerprint as key handle, and verifying the produced
signature bytes succeeds with content equal to the payload and signer
equal to the imported certificate's hex fingerprint. -/
theorem import_sign_verify_roundtrip
    (env : Env) (b b' : Backend) (policy : Cert → Key → Bool)
    (blob data : Blob) (c : Cert) (k : Key) (ktail : List Key)
    (hid : b.id = "softkeys")
    (hparse : env.certParse blob = .ok [.ok c])
    (himp : env.importKey b c = .ok b')
    (hupd : env.updateStore [] c = .ok [⟨c, none⟩])
    (hkh : parseKeyHandle c.fingerprint = .ok c.fingerprint)
    (hsel : c.keys.filter (policy c) = k :: ktail)
    (hmem : k ∈ b'.keys) :
    (SequoiaMechanism.import_keys env ⟨⟨[b]⟩, [], policy⟩ blob).1 =
      .ok [c.fingerprint] ∧
    ∃ sig,
      SequoiaMechanism.sign
        (SequoiaMechanism.import_keys env ⟨⟨[b]⟩, [], policy⟩ blob).2
        c.fingerprint none data = .ok sig ∧
      SequoiaMechanism.verify referenceReader
        (SequoiaMechanism.import_keys env ⟨⟨[b]⟩, [], policy⟩ blob).2 sig =
        .ok (data, c.fingerprint) := by
  have himport : SequoiaMechanism.import_keys env ⟨⟨[b]⟩, [], policy⟩ blob =
      (.ok [c.fingerprint], ⟨⟨[b']⟩, [⟨c, none⟩], policy⟩) := by
    simp [SequoiaMechanism.import_keys, hasSoftkeys, hid, hparse,
      importIntoSoftkeys, importLoop, himp, hupd]
  rw [himport]
  have hkmem : k ∈ c.keys := by
    have hkf : k ∈ c.keys.filter (policy c) := by
      rw [hsel]
      exact List.mem_cons_self _ _
    exact List.mem_of_mem_filter hkf
  have hlookup : lookupByCertOrSubkey [⟨c, none⟩] c.fingerprint = [⟨c, none⟩] := by
    simp [lookupByCertOrSubkey, certMatchesHandle]
  have hcand : resolvedCandidates [⟨c, none⟩] c.fingerprint = [c] := by
    simp [resolvedCandidates, hlookup, LazyCert.to_cert]
  have hsf : signingFingerprints policy c =
      k.fingerprint :: ktail.map Key.fingerprint := by
    simp [signingFingerprints, hsel]
  have hfilter_ne : b'.keys.filter (fun kk => kk.fingerprint == k.fingerprint) ≠ [] := by
    intro hnil
    exact absurd (List.filter_eq_nil_iff.mp hnil k hmem) (by simp)
  cases hfk : b'.keys.filter (fun kk => kk.fingerprint == k.fingerprint) with
  | nil => exact absurd hfk hfilter_ne
  | cons key0 ktl =>
    have hkey0 : key0.fingerprint = k.fingerprint := by
      have hm : key0 ∈ b'.keys.filter (fun kk => kk.fingerprint == k.fingerprint) := by
        rw [hfk]
        exact List.mem_cons_self _ _
      simpa using (List.mem_filter.mp hm).2
    have hfind : Keystore.find_key ⟨[b']⟩ k.fingerprint = key0 :: ktl := by
      simpa [Keystore.find_key] using hfk
    have hsign : SequoiaMechanism.sign ⟨⟨[b']⟩, [⟨c, none⟩], policy⟩
        c.fingerprint none data = .ok (mkSignedMessage key0 data) := by
      simp only [SequoiaMechanism.sign, hkh, hcand, List.flatMap_cons,
        List.flatMap_nil, List.append_nil, hsf, hfind]
    have hmatch : certMatchesHandle c k.fingerprint = true := by
      simp only [certMatchesHandle, Bool.or_eq_true, List.any_eq_true]
      exact Or.inr ⟨k, hkmem, by simp⟩
    have hlook2 : lookupByCertOrSubkey [⟨c, none⟩] k.fingerprint = [⟨c, none⟩] := by
      simp [lookupByCertOrSubkey, hmatch]
    have hgc : Helper.get_certs [⟨c, none⟩] [k.fingerprint] = .ok [c] := by
      simp [Helper.get_certs, getCertsLoop, hlook2, pushResolved, LazyCert.to_cert]
    have hany : c.keys.any (fun kk => kk.fingerprint == k.fingerprint) = true := by
      simp only [List.any_eq_true]
      exact ⟨k, hkmem, by simp⟩
    have hdec : decodeSignedMessage (mkSignedMessage key0 data) =
        .ok (k.fingerprint, data) := by
      rw [show mkSignedMessage key0 data =
            encodeSignedMessage k.fingerprint data by rw [mkSignedMessage, hkey0]]
      exact decode_encode k.fingerprint data
    have hverify : SequoiaMechanism.verify referenceReader
        ⟨⟨[b']⟩, [⟨c, none⟩], policy⟩ (mkSignedMessage key0 data) =
        .ok (data, c.fingerprint) := by
      have hne : (mkSignedMessage key0 data).isEmpty = false := rfl
      simp only [SequoiaMechanism.verify, hne, Bool.false_eq_true, if_false,
        referenceReader, hdec, hgc, List.map_cons, List.map_nil, hany, if_true,
        Helper.check, firstGoodResult]
    exact ⟨rfl, mkSignedMessage key0 data, hsign, hverify⟩

/-- Witness for C1: a concrete one-certificate import followed by sign
and verify round-trips the payload `[7]` and reports signer "AA". -/
theorem import_sign_verify_roundtrip_witness :
    (SequoiaMechanism.import_keys
      ⟨fun _ => .ok [.ok ⟨"AA", [⟨"BB", none⟩]⟩],
       fun _ _ => .ok ⟨"softkeys", [⟨"BB", none⟩]⟩,
       fun _ _ => .ok [⟨⟨"AA", [⟨"BB", none⟩]⟩, none⟩]⟩
      ⟨⟨[⟨"softkeys", []⟩]⟩, [], fun _ _ => true⟩ [1]).1 = .ok ["AA"] ∧
    ∃ sig,
      SequoiaMechanism.sign
        (SequoiaMechanism.import_keys
          ⟨fun _ => .ok [.ok ⟨"AA", [⟨"BB", none⟩]⟩],
           fun _ _ => .ok ⟨"softkeys", [⟨"BB", none⟩]⟩,
           fun _ _ => .ok [⟨⟨"AA", [⟨"BB", none⟩]⟩, none⟩]⟩
          ⟨⟨[⟨"softkeys", []⟩]⟩, [], fun _ _ => true⟩ [1]).2
        "AA" none [7] = .ok sig ∧
      SequoiaMechanism.verify referenceReader
        (SequoiaMechanism.import_keys
          ⟨fun _ => .ok [.ok ⟨"AA", [⟨"BB", none⟩]⟩],
           fun _ _ => .ok ⟨"softkeys", [⟨"BB", none⟩]⟩,
           fun _ _ => .ok [⟨⟨"AA", [⟨"BB", none⟩]⟩, none⟩]⟩
          ⟨⟨[⟨"softkeys", []⟩]⟩, [], fun _ _ => true⟩ [1]).2 sig =
        .ok ([7], "AA") :=
  import_sign_verify_roundtrip
    ⟨fun _ => .ok [.ok ⟨"AA", [⟨"BB", none⟩]⟩],
     fun _ _ => .ok ⟨"softkeys", [⟨"BB", none⟩]⟩,
     fun _ _ => .ok [⟨⟨"AA", [⟨"BB", none⟩]⟩, none⟩]⟩
    ⟨"softkeys", []⟩ ⟨"softkeys", [⟨"BB", none⟩]⟩ (fun _ _ => true)
    [1] [7] ⟨"AA", [⟨"BB", none⟩]⟩ ⟨"BB", none⟩ []
    rfl rfl rfl rfl rfl rfl (by decide)
